import Mathlib

/-!
Shallow embedding of the navigation core of the repository
(`src/hooks/useNavigation.ts`, `src/utils/navigation.ts`) and proofs about it.

JavaScript numbers passed through bitwise operators behave as 32-bit
integers (ToInt32); we model that with explicit `% 2 ^ 32` arithmetic on
`Int`/`Nat`.  Plain additions on decoded coordinate accumulators are exact
in IEEE doubles for every reachable magnitude, so they are modelled as
exact `Int` arithmetic; the final division by `10 ^ precision` is modelled
over `ℚ`.
-/

namespace MobileNav

/-- Unsigned 32-bit view of an integer, as produced by the ToUint32 step of
JavaScript bitwise operators. -/
def u32 (a : Int) : Nat := (a % (2 ^ 32 : Int)).toNat

/-- Reinterpretation of an unsigned 32-bit value as a signed 32-bit integer
(the ToInt32 step of JavaScript bitwise operators). -/
def toInt32 (n : Nat) : Int := if n < 2 ^ 31 then (n : Int) else (n : Int) - 2 ^ 32

/-- JavaScript bitwise and on 32-bit integers. -/
def jsAnd (a b : Int) : Int := toInt32 (Nat.land (u32 a) (u32 b))

/-- JavaScript bitwise or on 32-bit integers. -/
def jsOr (a b : Int) : Int := toInt32 (Nat.lor (u32 a) (u32 b))

/-- JavaScript left shift on 32-bit integers; the shift count is masked to
five bits. -/
def jsShl (a : Int) (n : Nat) : Int := toInt32 (((u32 a) <<< (n % 32)) % 2 ^ 32)

/-- JavaScript sign-propagating right shift on 32-bit integers: arithmetic
shift, i.e. floor division by a power of two. -/
def jsShrS (a : Int) (n : Nat) : Int := Int.ediv (toInt32 (u32 a)) (2 ^ (n % 32))

/-- JavaScript bitwise not on a 32-bit integer. -/
def jsNot (a : Int) : Int := -a - 1

/-!
Polyline codec, from `decodePolyline` in `src/utils/navigation.ts`.

One `do { byte = polyline.charCodeAt(index++) - 63; result |= (byte & 0x1f)
<< shift; shift += 5 } while (byte >= 0x20)` loop is embedded as `varint`,
acting on the remaining suffix of UTF-16 code units.  `charCodeAt` on an
out-of-range index yields NaN; `NaN - 63` is NaN, `ToInt32 NaN = 0`, and
`NaN >= 0x20` is false, so the past-the-end read contributes zero bits and
terminates the loop.  The empty-list branch below is exactly that NaN
iteration.
-/

/-- Embedding of one variable-length-integer loop of `decodePolyline`:
given the remaining code units, the running shift and the running result,
return the final 32-bit `result` and the remaining code units after the
loop. -/
def varint : List Nat → Nat → Int → Int × List Nat
  | [], shift, result => (jsOr result (jsShl (jsAnd 0 31) shift), [])
  | c :: rest, shift, result =>
    let byte : Int := (c : Int) - 63
    let result2 := jsOr result (jsShl (jsAnd byte 31) shift)
    if 32 ≤ byte then varint rest (shift + 5) result2 else (result2, rest)

theorem varint_len_le (l : List Nat) : ∀ shift result,
    ((varint l shift result).2).length ≤ l.length := by
  induction l with
  | nil => intro shift result; simp [varint]
  | cons c rest ih =>
    intro shift result
    simp only [varint]
    split
    · exact le_trans (ih _ _) (Nat.le_succ _)
    · simp

theorem varint_cons_le (c : Nat) (rest : List Nat) (shift : Nat) (result : Int) :
    ((varint (c :: rest) shift result).2).length ≤ rest.length := by
  simp only [varint]
  split
  · exact varint_len_le rest _ _
  · simp

/-- Embedding of the outer `while (index < polyline.length)` loop of
`decodePolyline`, acting on the remaining code units and the running
integer latitude/longitude accumulators.  Each iteration decodes a
latitude delta and a longitude delta and pushes one `(lng, lat)` pair of
scaled integer coordinates. -/
def decodeLoop (l : List Nat) (lat lng : Int) : List (Int × Int) :=
  match l with
  | [] => []
  | c :: rest =>
    let p1 := varint (c :: rest) 0 0
    let deltaLat := if jsAnd p1.1 1 ≠ 0 then jsNot (jsShrS p1.1 1) else jsShrS p1.1 1
    let lat2 := lat + deltaLat
    let p2 := varint p1.2 0 0
    let deltaLng := if jsAnd p2.1 1 ≠ 0 then jsNot (jsShrS p2.1 1) else jsShrS p2.1 1
    let lng2 := lng + deltaLng
    (lng2, lat2) :: decodeLoop p2.2 lat2 lng2
termination_by l.length
decreasing_by
  simp only [List.length_cons]
  exact Nat.lt_succ_of_le (le_trans (varint_len_le _ _ _) (varint_cons_le _ _ _ _))

/-- UTF-16 code units of a string (all source inputs are ASCII, where code
units and code points coincide). -/
def charCodes (s : String) : List Nat := s.data.map Char.toNat

/-- Embedding of `decodePolyline(polyline, precision)` from
`src/utils/navigation.ts`: decodes a polyline string into `(lng, lat)`
coordinate pairs in degrees.  IEEE doubles are idealised as `ℚ`. -/
def decodePolyline (polyline : String) (precision : Nat) : List (ℚ × ℚ) :=
  if polyline = "" then []
  else
    (decodeLoop (charCodes polyline) 0 0).map
      (fun p => ((p.1 : ℚ) / 10 ^ precision, (p.2 : ℚ) / 10 ^ precision))

/-- Validation of the codec embedding against the reference polyline of the
algorithm description (precision 5): it decodes to the three documented
points, exactly. -/
theorem decodePolyline_reference_example :
    decodePolyline "_p~iF~ps|U_ulLnnqC_mqNvxq`@" 5 =
      [(-(601 : ℚ)/5, (77 : ℚ)/2), (-(2419 : ℚ)/20, (407 : ℚ)/10),
       (-(126453 : ℚ)/1000, (10813 : ℚ)/250)] := by
  have h : decodeLoop (charCodes "_p~iF~ps|U_ulLnnqC_mqNvxq`@") 0 0 =
      [(-12020000, 3850000), (-12095000, 4070000), (-12645300, 4325200)] := by
    simp [charCodes, decodeLoop, varint]
    decide
  rw [decodePolyline, if_neg (by decide), h]
  norm_num

theorem decodeLoop_length_le_aux (n : Nat) : ∀ (l : List Nat) (lat lng : Int),
    l.length ≤ n → (decodeLoop l lat lng).length ≤ l.length / 2 + 1 := by
  induction n with
  | zero =>
    intro l lat lng h
    have hl : l = [] := List.eq_nil_of_length_eq_zero (Nat.le_zero.mp h)
    subst hl
    simp [decodeLoop]
  | succ n ih =>
    intro l lat lng h
    match l with
    | [] => simp [decodeLoop]
    | c :: rest =>
      have h1 : ((varint (c :: rest) 0 0).2).length ≤ rest.length :=
        varint_cons_le c rest 0 0
      have h6 : rest.length ≤ n := by
        simpa using Nat.le_of_succ_le_succ h
      simp only [decodeLoop, List.length_cons]
      rcases hX : (varint (c :: rest) 0 0).2 with _ | ⟨d, r2⟩
      · simp [varint, decodeLoop]
      · rw [hX] at h1
        have h3 : ((varint (d :: r2) 0 0).2).length ≤ r2.length :=
          varint_cons_le d r2 0 0
        have h5 : ((varint (d :: r2) 0 0).2).length ≤ n := by
          simp only [List.length_cons] at h1
          omega
        refine le_trans (Nat.add_le_add_right (ih _ _ _ h5) 1) ?_
        simp only [List.length_cons] at h1
        omega

/-- Termination bound for the decoder loop: every iteration of the outer
loop consumes at least two positions while in bounds, so the number of
emitted points is bounded by half the input length plus one. -/
theorem decodeLoop_length_le (l : List Nat) (lat lng : Int) :
    (decodeLoop l lat lng).length ≤ l.length / 2 + 1 :=
  decodeLoop_length_le_aux l.length l lat lng le_rfl

/-!
Instrumented copy of the codec that additionally reports whether any
variable-length-integer loop ran past the end of the input (the NaN read
of `charCodeAt`), i.e. whether the input ended in a truncated multi-byte
sequence.  The point output is computed exactly as in `decodeLoop`; only
the Boolean is added.
-/

/-- Instrumented `varint`: additionally returns whether the loop hit the
end of the input before seeing a terminating byte. -/
def varintT : List Nat → Nat → Int → Int × List Nat × Bool
  | [], shift, result => (jsOr result (jsShl (jsAnd 0 31) shift), [], true)
  | c :: rest, shift, result =>
    let byte : Int := (c : Int) - 63
    let result2 := jsOr result (jsShl (jsAnd byte 31) shift)
    if 32 ≤ byte then varintT rest (shift + 5) result2 else (result2, rest, false)

theorem varintT_len_le (l : List Nat) : ∀ shift result,
    ((varintT l shift result).2.1).length ≤ l.length := by
  induction l with
  | nil => intro shift result; simp [varintT]
  | cons c rest ih =>
    intro shift result
    simp only [varintT]
    split
    · exact le_trans (ih _ _) (Nat.le_succ _)
    · simp

theorem varintT_cons_le (c : Nat) (rest : List Nat) (shift : Nat) (result : Int) :
    ((varintT (c :: rest) shift result).2.1).length ≤ rest.length := by
  simp only [varintT]
  split
  · exact varintT_len_le rest _ _
  · simp

/-- Instrumented `decodeLoop`: same points, plus a flag that is true when
some inner loop read past the end of the input. -/
def decodeLoopT (l : List Nat) (lat lng : Int) : List (Int × Int) × Bool :=
  match l with
  | [] => ([], false)
  | c :: rest =>
    let p1 := varintT (c :: rest) 0 0
    let deltaLat := if jsAnd p1.1 1 ≠ 0 then jsNot (jsShrS p1.1 1) else jsShrS p1.1 1
    let lat2 := lat + deltaLat
    let p2 := varintT p1.2.1 0 0
    let deltaLng := if jsAnd p2.1 1 ≠ 0 then jsNot (jsShrS p2.1 1) else jsShrS p2.1 1
    let lng2 := lng + deltaLng
    let restRes := decodeLoopT p2.2.1 lat2 lng2
    ((lng2, lat2) :: restRes.1, p1.2.2 || p2.2.2 || restRes.2)
termination_by l.length
decreasing_by
  simp only [List.length_cons]
  exact Nat.lt_succ_of_le (le_trans (varintT_len_le _ _ _) (varintT_cons_le _ _ _ _))

/-- Instrumented `decodePolyline`: the decoded points together with the
truncation flag. -/
def decodePolylineT (polyline : String) (precision : Nat) : List (ℚ × ℚ) × Bool :=
  if polyline = "" then ([], false)
  else
    ((decodeLoopT (charCodes polyline) 0 0).1.map
      (fun p => ((p.1 : ℚ) / 10 ^ precision, (p.2 : ℚ) / 10 ^ precision)),
     (decodeLoopT (charCodes polyline) 0 0).2)

theorem decodeLoopT_truncated_ne_nil (l : List Nat) (lat lng : Int)
    (h : (decodeLoopT l lat lng).2 = true) : l ≠ [] := by
  intro hl
  subst hl
  simp [decodeLoopT] at h

theorem decodeLoop_cons_ne_nil (c : Nat) (rest : List Nat) (lat lng : Int) :
    decodeLoop (c :: rest) lat lng ≠ [] := by
  simp [decodeLoop]

/-- C10: for every input string and every precision, `decodePolyline`
terminates and returns a finite list without throwing.  Totality of the
embedding is established by the accepted termination argument (the outer
loop consumes at least two code units per iteration while in bounds, and a
past-the-end read terminates each inner loop); the explicit length bound
below witnesses that progress.  Truncated input silently ends rather than
looping or erroring. -/
theorem claim_C10_decode_total_bounded (s : String) (precision : Nat) :
    (decodePolyline s precision).length ≤ s.length / 2 + 1 := by
  rw [decodePolyline]
  split
  · simp
  · rw [List.length_map]
    have h := decodeLoop_length_le (charCodes s) 0 0
    have hlen : (charCodes s).length = s.length := by
      rw [charCodes, List.length_map]
      rfl
    rw [hlen] at h
    exact h

set_option maxRecDepth 4000 in
/-- C4 counterexample: the input string of a single code unit 95 (an
underscore) ends in a truncated multi-byte sequence (its continuation bit
is set and no further byte follows) — the instrumented decoder reports the
truncation — yet `decodePolyline` does not fail with any error: it
silently returns the one-point sequence [(0, 0)].  The source function has
no failure channel at all (no throw, no error return). -/
theorem claim_C4_counterexample :
    (decodePolylineT "_" 6).2 = true ∧ decodePolyline "_" 6 = [(0, 0)] := by
  constructor
  · rw [decodePolylineT, if_neg (by decide)]
    simp [charCodes, decodeLoopT, varintT]
  · have h : decodeLoop (charCodes "_") 0 0 = [(0, 0)] := by
      simp [charCodes, decodeLoop, varint]
      decide
    rw [decodePolyline, if_neg (by decide), h]
    norm_num

/-- C4 as amended: on every input whose decoding runs some
variable-length-integer loop past the end of the string (a truncated
multi-byte sequence, as reported by the instrumented decoder),
`decodePolyline` does not read past-the-end data (the NaN read contributes
zero bits and stops the loop) and silently returns a non-empty point
sequence — possibly with a garbage final point — rather than failing with
a `MalformedPolyline` error, which does not exist in the code. -/
theorem claim_C4_truncated_silently_returns (s : String) (precision : Nat)
    (h : (decodePolylineT s precision).2 = true) :
    decodePolyline s precision ≠ [] := by
  have hs : ¬ s = "" := by
    intro hs
    rw [decodePolylineT, if_pos hs] at h
    simp at h
  rw [decodePolylineT, if_neg hs] at h
  have hnil : charCodes s ≠ [] := decodeLoopT_truncated_ne_nil _ _ _ h
  rw [decodePolyline, if_neg hs]
  match hc : charCodes s with
  | [] => exact absurd hc hnil
  | c :: rest =>
    intro hmap
    rw [List.map_eq_nil_iff] at hmap
    exact decodeLoop_cons_ne_nil c rest 0 0 hmap

set_option maxRecDepth 4000 in
/-- Witness for the amended C4 theorem at the concrete truncated input. -/
theorem claim_C4_witness : decodePolyline "_" 6 ≠ [] :=
  claim_C4_truncated_silently_returns "_" 6 (by
    rw [decodePolylineT, if_neg (by decide)]
    simp [charCodes, decodeLoopT, varintT])

/-!
Geo math, from `calculateDistance` in `src/utils/navigation.ts`.  IEEE
doubles and the JavaScript `Math` library are idealised as real numbers
and the exact real functions; `Math.atan2` is the standard two-argument
arctangent. -/

/-- Two-argument arctangent as computed by `Math.atan2(y, x)` (real
idealisation; the signed-zero distinctions of IEEE are irrelevant here). -/
noncomputable def jsAtan2 (y x : ℝ) : ℝ :=
  if 0 < x then Real.arctan (y / x)
  else if x < 0 then
    (if 0 ≤ y then Real.arctan (y / x) + Real.pi else Real.arctan (y / x) - Real.pi)
  else if 0 < y then Real.pi / 2
  else if y < 0 then -(Real.pi / 2)
  else 0

/-- Embedding of `calculateDistance(lat1, lon1, lat2, lon2)` from
`src/utils/navigation.ts`: great-circle distance in meters by the
Haversine formula with mean Earth radius 6371000 m. -/
noncomputable def calculateDistance (lat1 lon1 lat2 lon2 : ℝ) : ℝ :=
  let R : ℝ := 6371000
  let φ1 := lat1 * Real.pi / 180
  let φ2 := lat2 * Real.pi / 180
  let Δφ := (lat2 - lat1) * Real.pi / 180
  let Δlon := (lon2 - lon1) * Real.pi / 180
  let a := Real.sin (Δφ / 2) * Real.sin (Δφ / 2) +
    Real.cos φ1 * Real.cos φ2 * (Real.sin (Δlon / 2) * Real.sin (Δlon / 2))
  let c := 2 * jsAtan2 (Real.sqrt a) (Real.sqrt (1 - a))
  R * c

theorem sin_half_sq_symm (x y : ℝ) :
    Real.sin ((x - y) * Real.pi / 180 / 2) * Real.sin ((x - y) * Real.pi / 180 / 2) =
      Real.sin ((y - x) * Real.pi / 180 / 2) * Real.sin ((y - x) * Real.pi / 180 / 2) := by
  rw [show (x - y) * Real.pi / 180 / 2 = -((y - x) * Real.pi / 180 / 2) by ring,
    Real.sin_neg]
  ring

/-- C9: the great-circle distance of the code is symmetric in its two
points, and the distance from any point to itself is zero. -/
theorem claim_C9_distance_symm_and_self_zero (lat1 lon1 lat2 lon2 : ℝ) :
    calculateDistance lat1 lon1 lat2 lon2 = calculateDistance lat2 lon2 lat1 lon1 ∧
      calculateDistance lat1 lon1 lat1 lon1 = 0 := by
  constructor
  · simp only [calculateDistance]
    rw [sin_half_sq_symm lat2 lat1, sin_half_sq_symm lon2 lon1,
      mul_comm (Real.cos (lat1 * Real.pi / 180)) (Real.cos (lat2 * Real.pi / 180))]
  · simp only [calculateDistance, sub_self, zero_mul, zero_div, Real.sin_zero,
      mul_zero, zero_add, add_zero, Real.sqrt_zero, sub_zero, Real.sqrt_one]
    rw [jsAtan2, if_pos one_pos]
    simp [Real.arctan_zero]

/-!
Route data model, from `src/types/navigation.ts`.  Only the fields the
embedded navigation logic reads are modelled (summary blocks, verbal
instruction variants and unit labels are never touched by the code under
scrutiny).  Numeric JSON fields that the code uses as array indices are
modelled as `Nat` (the provider delivers non-negative integers there).
-/

/-- Model of the `ManeuverInstruction` interface. -/
structure ManeuverInstruction where
  type : Nat
  instruction : String
  time : ℚ
  begin_shape_index : Nat
  end_shape_index : Nat
deriving DecidableEq

/-- Model of the `NavigationLeg` interface. -/
structure NavigationLeg where
  shape : String
  maneuvers : List ManeuverInstruction
deriving DecidableEq

/-- Model of the `trip` object of a `RouteResponse`. -/
structure Trip where
  legs : List NavigationLeg
  status : Int
  status_message : String
deriving DecidableEq

/-- Model of the `RouteResponse` interface. -/
structure RouteResponse where
  trip : Trip
deriving DecidableEq

/-- Model of the `NavigationState` interface.  The distance field is a
number; the embedding is generic in the number type `α` so that theorems
instantiate it with `ℝ` (the IEEE-double idealisation used with the real
Haversine distance) while witnesses evaluate on `ℚ`. -/
structure NavigationState (α : Type) where
  isNavigating : Bool
  currentRoute : Option RouteResponse
  currentManeuverIndex : Nat
  currentLegIndex : Nat
  distanceToNextManeuver : α
  isLoading : Bool
  error : Option String
deriving DecidableEq

/-- One device position fix (`position.coords`). -/
structure GeoPosition (α : Type) where
  latitude : α
  longitude : α
deriving DecidableEq

/-- The state built by `useState` at hook start, and rebuilt verbatim by
`stopNavigation` (lines 8 to 16 and 167 to 175 of `useNavigation.ts`). -/
def emptyNavigationState {α : Type} [Zero α] : NavigationState α :=
  { isNavigating := false
    currentRoute := none
    currentManeuverIndex := 0
    currentLegIndex := 0
    distanceToNextManeuver := 0
    isLoading := false
    error := none }

/-- Model of `stopNavigation`: `clearWatch` runs first (only when the
stored watch id is truthy, i.e. non-null and non-zero — a JavaScript
falsiness quirk), then the state is reset to the empty state.  Returns the
watch id reference content and the state after the call. -/
def stopNavigation {α : Type} [Zero α] (watchId : Option Nat) :
    Option Nat × NavigationState α :=
  (match watchId with
   | some w => if w ≠ 0 then none else some w
   | none => none,
   emptyNavigationState)

/-!
Instruction cleaning, from the `watchPosition` callback: the instruction
text of the newly current maneuver is passed through
`.replace(/<[^>]+>/g, " ")`, then `.replace(/\s+/g, " ")`, then `.trim()`
before being handed to `speakInstruction`.
-/

/-- Whitespace as matched by the regular expression class `\s` (the rare
Unicode space classes never occur in provider instructions and are
omitted). -/
def jsWhitespace (c : Char) : Bool :=
  c = ' ' || c = '\t' || c = '\n' || c = '\r' || c = '\x0b' || c = '\x0c'

/-- Scanning helper for the tag-stripping pass: consume characters up to
and including the next closing angle bracket, if any. -/
def skipToGt : List Char → Option (List Char)
  | [] => none
  | c :: rest => if c = '>' then some rest else skipToGt rest

theorem skipToGt_length : ∀ (l r : List Char), skipToGt l = some r →
    r.length < l.length := by
  intro l
  induction l with
  | nil => intro r h; simp [skipToGt] at h
  | cons c rest ih =>
    intro r h
    rw [skipToGt] at h
    split at h
    · cases h
      simp
    · exact Nat.lt_trans (ih r h) (Nat.lt_succ_self _)

/-- Left-to-right replacement of every match of `<[^>]+>` by one space, as
performed by `String.prototype.replace` with a global regex: at an opening
bracket, a match needs at least one non-bracket character followed by a
closing bracket; otherwise the opening bracket is kept verbatim and
scanning resumes right after it.  A single trailing character is emitted
verbatim in every case, matching the scan. -/
def stripTags : List Char → List Char
  | [] => []
  | [c] => [c]
  | c :: c2 :: rest2 =>
    if c = '<' then
      if c2 = '>' then c :: stripTags (c2 :: rest2)
      else
        match h : skipToGt rest2 with
        | some r => ' ' :: stripTags r
        | none => c :: stripTags (c2 :: rest2)
    else c :: stripTags (c2 :: rest2)
termination_by l => l.length
decreasing_by
  · simp
  · simp only [List.length_cons]
    have := skipToGt_length rest2 r h
    omega
  · simp
  · simp

theorem dropWhile_length_le (p : Char → Bool) (l : List Char) :
    (l.dropWhile p).length ≤ l.length := by
  induction l with
  | nil => simp
  | cons c rest ih =>
    rw [List.dropWhile_cons]
    split
    · exact le_trans ih (Nat.le_succ _)
    · simp

/-- Replacement of every maximal whitespace run by one space
(`.replace(/\s+/g, " ")`). -/
def collapseWs (l : List Char) : List Char :=
  match l with
  | [] => []
  | c :: rest =>
    if jsWhitespace c then ' ' :: collapseWs (rest.dropWhile (fun d => jsWhitespace d))
    else c :: collapseWs rest
termination_by l.length
decreasing_by
  · simp only [List.length_cons]
    have := dropWhile_length_le (fun d => jsWhitespace d) rest
    omega
  · simp

/-- Whitespace trimming at both ends (`.trim()`). -/
def jsTrim (l : List Char) : List Char :=
  ((l.dropWhile (fun d => jsWhitespace d)).reverse.dropWhile
    (fun d => jsWhitespace d)).reverse

/-- The cleaned instruction text handed to `speakInstruction` on a
maneuver advance. -/
def cleanInstruction (s : String) : String :=
  String.mk (jsTrim (collapseWs (stripTags s.data)))

/-!
Session controller, from `calculateRoute` and `startNavigation` in
`src/hooks/useNavigation.ts`.  The network interaction is modelled by its
three possible outcomes; everything after the `fetch` is embedded
faithfully.
-/

/-- Outcome of the route request: the HTTP response was not ok (the code
throws `HTTP error! status: N`), the fetch or JSON parse threw with some
message, or a parsed body arrived. -/
inductive FetchOutcome where
  | httpError (status : Nat)
  | thrown (message : String)
  | success (data : RouteResponse)
deriving DecidableEq

/-- The message stored in `error` by the catch block of `calculateRoute`
for each failing outcome (for a successful fetch it is the non-zero-status
message).  Mirrors the string composition of the source. -/
def outcomeMessage : FetchOutcome → String
  | .httpError status => "HTTP error! status: " ++ toString status
  | .thrown message => message
  | .success data =>
    if data.trip.status_message = "" then "Route calculation failed"
    else data.trip.status_message

/-- An outcome on which `calculateRoute` returns null: transport failure,
non-ok HTTP response, or a body whose `trip.status` is non-zero. -/
def isFailure : FetchOutcome → Bool
  | .httpError _ => true
  | .thrown _ => true
  | .success data => decide (data.trip.status ≠ 0)

/-- Embedding of `calculateRoute`: sets the loading flag and clears the
error, then either stores the successful response as `currentRoute` and
returns it, or records the failure message with `isLoading := false` and
returns null (`none`).  The empty status message falls back to
`Route calculation failed` because of the `||` default in the source. -/
def calculateRoute {α : Type} (outcome : FetchOutcome) (st : NavigationState α) :
    NavigationState α × Option RouteResponse :=
  let st1 : NavigationState α := { st with isLoading := true, error := none }
  match outcome with
  | .httpError status =>
    ({ st1 with
        isLoading := false
        error := some ("HTTP error! status: " ++ toString status) }, none)
  | .thrown message =>
    ({ st1 with isLoading := false, error := some message }, none)
  | .success data =>
    if data.trip.status ≠ 0 then
      ({ st1 with
          isLoading := false
          error := some (if data.trip.status_message = "" then "Route calculation failed"
            else data.trip.status_message) }, none)
    else
      ({ st1 with currentRoute := some data, isLoading := false }, some data)

/-- Embedding of the state changes of `startNavigation` up to the
subscription: on a null route it returns immediately; on success it sets
`isNavigating` and resets both cursors before subscribing to the position
stream. -/
def startNavigation {α : Type} (outcome : FetchOutcome) (st : NavigationState α) :
    NavigationState α × Option RouteResponse :=
  match calculateRoute outcome st with
  | (st1, none) => (st1, none)
  | (st1, some route) =>
    ({ st1 with
        isNavigating := true
        currentManeuverIndex := 0
        currentLegIndex := 0 }, some route)

/-!
Progress tracker, from the `watchPosition` success callback of
`startNavigation` (lines 121 to 150 of `useNavigation.ts`).  The callback
closes over the `route` returned by `calculateRoute` and over
`decodedLegShapes`; the distance function is a parameter `d` so that the
statements instantiate it with `calculateDistance` over `ℝ` while the
witnesses evaluate concrete runs over `ℚ`.  The announcement handed to
`speakInstruction` is returned as an optional pair of the newly current
maneuver index and the cleaned text.  One modelling note:
`decodedLegShapes[prev.currentLegIndex]` is looked up with a `[]` default;
in the source an out-of-range leg index would make the subsequent
`.length` access throw, but the leg index is always 0 and the decoded
array has one entry per leg of the route whose leg was already found. -/
def watchCallback {α : Type} [LinearOrderedField α] (d : α → α → α → α → α)
    (route : RouteResponse) (decodedLegShapes : List (List (α × α)))
    (position : GeoPosition α) (prev : NavigationState α) :
    NavigationState α × Option (Nat × String) :=
  let currentRoute := prev.currentRoute.getD route
  match currentRoute.trip.legs.get? prev.currentLegIndex with
  | none => (prev, none)
  | some leg =>
    let maneuvers := leg.maneuvers
    if maneuvers.length = 0 then (prev, none)
    else
      let maneuver := maneuvers.get? prev.currentManeuverIndex
      let shapePoints := decodedLegShapes.getD prev.currentLegIndex []
      let distanceToNext : α :=
        match maneuver with
        | some m =>
          if shapePoints.length ≠ 0 ∧ m.end_shape_index < shapePoints.length then
            let endPoint := shapePoints.getD m.end_shape_index (0, 0)
            d position.latitude position.longitude endPoint.2 endPoint.1
          else prev.distanceToNextManeuver
        | none => prev.distanceToNextManeuver
      if distanceToNext < 8 ∧ prev.currentManeuverIndex < maneuvers.length - 1 then
        let nextManeuverIndex := prev.currentManeuverIndex + 1
        let announcement :=
          match maneuvers.get? nextManeuverIndex with
          | some next =>
            if next.instruction ≠ "" then
              some (nextManeuverIndex, cleanInstruction next.instruction)
            else none
          | none => none
        ({ prev with
            currentRoute := some currentRoute
            currentManeuverIndex := nextManeuverIndex
            distanceToNextManeuver := distanceToNext }, announcement)
      else
        ({ prev with
            currentRoute := some currentRoute
            distanceToNextManeuver := distanceToNext }, none)

/-- Embedding of `getCurrentInstruction`: a pure read of the current
maneuver, `none` whenever there is no route, navigation is off, or a
lookup fails. -/
def getCurrentInstruction {α : Type} (s : NavigationState α) :
    Option ManeuverInstruction :=
  match s.currentRoute with
  | none => none
  | some route =>
    if s.isNavigating = false then none
    else
      match route.trip.legs.get? s.currentLegIndex with
      | none => none
      | some currentLeg => currentLeg.maneuvers.get? s.currentManeuverIndex

/-- A whole stream of position fixes fed through the callback in order,
collecting every announcement handed to `speakInstruction`. -/
def runFixes {α : Type} [LinearOrderedField α] (d : α → α → α → α → α)
    (route : RouteResponse) (decodedLegShapes : List (List (α × α))) :
    NavigationState α → List (GeoPosition α) → NavigationState α × List (Nat × String)
  | s, [] => (s, [])
  | s, f :: fs =>
    let r1 := watchCallback d route decodedLegShapes f s
    let r2 := runFixes d route decodedLegShapes r1.1 fs
    (r2.1, r1.2.toList ++ r2.2)

/-!
Concrete fixtures used by counterexamples and witnesses: a two-maneuver
single-leg route, its decoded shape, a position fix at the origin, and two
constant distance functions (one inside, one outside the 8 m threshold).
-/

/-- A starting maneuver ending at shape index 1. -/
def demoManeuver0 : ManeuverInstruction :=
  { type := 1, instruction := "Head north", time := 10,
    begin_shape_index := 0, end_shape_index := 1 }

/-- A left turn ending at shape index 2. -/
def demoManeuver1 : ManeuverInstruction :=
  { type := 15, instruction := "Turn left", time := 5,
    begin_shape_index := 1, end_shape_index := 2 }

/-- A single leg with the two demo maneuvers. -/
def demoLeg : NavigationLeg := { shape := "??", maneuvers := [demoManeuver0, demoManeuver1] }

/-- A successful route response holding the demo leg. -/
def demoRoute : RouteResponse :=
  { trip := { legs := [demoLeg], status := 0, status_message := "" } }

/-- A decoded shape of three points for the demo leg. -/
def demoShapes : List (List (ℚ × ℚ)) := [[(0, 0), (1, 1), (2, 2)]]

/-- A fix at the origin. -/
def demoPos : GeoPosition ℚ := { latitude := 0, longitude := 0 }

/-- A distance function whose value is always below the 8 m threshold. -/
def dZero : ℚ → ℚ → ℚ → ℚ → ℚ := fun _ _ _ _ => 0

/-- A distance function whose value is always above the 8 m threshold. -/
def dFar : ℚ → ℚ → ℚ → ℚ → ℚ := fun _ _ _ _ => 99

/-!
Helper lemmas about one callback step: the `isNavigating` flag is never
touched, the maneuver cursor moves by zero or one, and an announcement is
emitted exactly at a transition to the announced index.
-/

theorem watchCallback_isNavigating {α : Type} [LinearOrderedField α]
    (d : α → α → α → α → α) (route : RouteResponse)
    (shapes : List (List (α × α))) (pos : GeoPosition α) (prev : NavigationState α) :
    (watchCallback d route shapes pos prev).1.isNavigating = prev.isNavigating := by
  simp only [watchCallback]
  cases hleg : (prev.currentRoute.getD route).trip.legs.get? prev.currentLegIndex with
  | none => simp
  | some leg =>
    simp only
    split
    · rfl
    · split
      · rfl
      · rfl

theorem watchCallback_index_mono {α : Type} [LinearOrderedField α]
    (d : α → α → α → α → α) (route : RouteResponse)
    (shapes : List (List (α × α))) (pos : GeoPosition α) (prev : NavigationState α) :
    (watchCallback d route shapes pos prev).1.currentManeuverIndex = prev.currentManeuverIndex ∨
      (watchCallback d route shapes pos prev).1.currentManeuverIndex =
        prev.currentManeuverIndex + 1 := by
  simp only [watchCallback]
  cases hleg : (prev.currentRoute.getD route).trip.legs.get? prev.currentLegIndex with
  | none => simp
  | some leg =>
    simp only
    split
    · simp
    · split
      · right; rfl
      · left; rfl

theorem watchCallback_announce_eq {α : Type} [LinearOrderedField α]
    (d : α → α → α → α → α) (route : RouteResponse)
    (shapes : List (List (α × α))) (pos : GeoPosition α) (prev : NavigationState α)
    (i : Nat) (t : String)
    (h : (watchCallback d route shapes pos prev).2 = some (i, t)) :
    i = prev.currentManeuverIndex + 1 ∧
      (watchCallback d route shapes pos prev).1.currentManeuverIndex = i := by
  revert h
  simp only [watchCallback]
  cases hleg : (prev.currentRoute.getD route).trip.legs.get? prev.currentLegIndex with
  | none => intro h; simp at h
  | some leg =>
    simp only
    split
    · intro h; simp at h
    · split
      · cases hnext : leg.maneuvers.get? (prev.currentManeuverIndex + 1) with
        | none => intro h; simp [hnext] at h
        | some next =>
          simp only [hnext]
          split
          · intro h
            simp only [Option.some.injEq, Prod.mk.injEq] at h
            exact ⟨h.1.symm, h.1.symm ▸ rfl⟩
          · intro h; simp at h
      · intro h; simp at h

theorem getCurrentInstruction_eq_none_of_not_navigating {α : Type}
    (s : NavigationState α) (h : s.isNavigating = false) :
    getCurrentInstruction s = none := by
  simp only [getCurrentInstruction]
  cases hr : s.currentRoute with
  | none => rfl
  | some route => simp [h]

/-- C1 counterexample: after `stopNavigation` the state is the empty reset
state with `currentRoute = none`; feeding one stale fix through the
`watchPosition` callback body does mutate the state — the callback
restores `currentRoute` from the route captured in its closure — so not
every field still equals the empty reset state. -/
theorem claim_C1_counterexample :
    (stopNavigation (α := ℚ) (some 7)).2.currentRoute = none ∧
      ((watchCallback dFar demoRoute demoShapes demoPos
          (stopNavigation (α := ℚ) (some 7)).2).1.currentRoute = some demoRoute) := by
  constructor
  · rfl
  · decide

/-- C1 as amended: after `stopNavigation` returns, processing a stale
position fix leaves `isNavigating` false and `getCurrentInstruction`
still returns `none` — but the state is mutated (the closed-over route is
written back to `currentRoute`, and the cursor and distance fields are
recomputed), so the guarantee is only about the instruction query and the
navigating flag, not about every field equalling the reset state. -/
theorem claim_C1_stale_fix_instruction_none {α : Type} [LinearOrderedField α]
    (d : α → α → α → α → α) (route : RouteResponse)
    (shapes : List (List (α × α))) (pos : GeoPosition α) (watchId : Option Nat) :
    ((watchCallback d route shapes pos (stopNavigation (α := α) watchId).2).1).isNavigating
        = false ∧
      getCurrentInstruction
        ((watchCallback d route shapes pos (stopNavigation (α := α) watchId).2).1) = none := by
  have h1 : ((watchCallback d route shapes pos
      (stopNavigation (α := α) watchId).2).1).isNavigating = false := by
    rw [watchCallback_isNavigating]
    rfl
  exact ⟨h1, getCurrentInstruction_eq_none_of_not_navigating _ h1⟩

/-- C2: on a fix processed while the maneuver endpoint resolves (the leg
and the current maneuver exist, the decoded shape is non-empty and the
end shape index is in range), the cursor advances by exactly one if and
only if the computed distance from the fix to the endpoint is strictly
below 8 and the current maneuver is not the last of the leg; and on every
fix the cursor moves by at most one and never decreases. -/
theorem claim_C2_advance_iff {α : Type} [LinearOrderedField α]
    (d : α → α → α → α → α) (route : RouteResponse)
    (shapes : List (List (α × α))) (pos : GeoPosition α) (prev : NavigationState α)
    (leg : NavigationLeg) (m : ManeuverInstruction)
    (hleg : (prev.currentRoute.getD route).trip.legs.get? prev.currentLegIndex = some leg)
    (hm : leg.maneuvers.get? prev.currentManeuverIndex = some m)
    (hne : (shapes.getD prev.currentLegIndex []).length ≠ 0)
    (hend : m.end_shape_index < (shapes.getD prev.currentLegIndex []).length) :
    ((watchCallback d route shapes pos prev).1.currentManeuverIndex =
        prev.currentManeuverIndex + 1 ↔
      (d pos.latitude pos.longitude
          ((shapes.getD prev.currentLegIndex []).getD m.end_shape_index (0, 0)).2
          ((shapes.getD prev.currentLegIndex []).getD m.end_shape_index (0, 0)).1 < 8 ∧
        prev.currentManeuverIndex < leg.maneuvers.length - 1)) ∧
    ((watchCallback d route shapes pos prev).1.currentManeuverIndex =
        prev.currentManeuverIndex ∨
      (watchCallback d route shapes pos prev).1.currentManeuverIndex =
        prev.currentManeuverIndex + 1) := by
  refine ⟨?_, watchCallback_index_mono d route shapes pos prev⟩
  have hlen : ¬ leg.maneuvers.length = 0 := by
    intro h0
    rw [List.get?_eq_none.mpr (by omega)] at hm
    exact Option.noConfusion hm
  simp only [watchCallback, hleg, hm]
  rw [if_neg hlen,
    if_pos (show (shapes.getD prev.currentLegIndex []).length ≠ 0 ∧
      m.end_shape_index < (shapes.getD prev.currentLegIndex []).length from ⟨hne, hend⟩)]
  split
  · next hcond => exact iff_of_true rfl hcond
  · next hcond => exact iff_of_false (by simp) hcond

/-- Witness for the C2 theorem on the demo route with an always-near
distance function: every hypothesis is discharged on concrete data and
the advance condition fires. -/
theorem claim_C2_witness :
    (watchCallback dZero demoRoute demoShapes demoPos
      (emptyNavigationState (α := ℚ))).1.currentManeuverIndex =
      (emptyNavigationState (α := ℚ)).currentManeuverIndex + 1 :=
  ((claim_C2_advance_iff dZero demoRoute demoShapes demoPos emptyNavigationState
      demoLeg demoManeuver0 (by decide) (by decide) (by decide) (by decide)).1).mpr
    ⟨by decide, by decide⟩

/-- C6: on a fix for which the current maneuver's endpoint cannot be
resolved (the decoded shape is empty, or shorter than the end shape index
plus one), the stored distance keeps exactly its previous value. -/
theorem claim_C6_unresolvable_keeps_distance {α : Type} [LinearOrderedField α]
    (d : α → α → α → α → α) (route : RouteResponse)
    (shapes : List (List (α × α))) (pos : GeoPosition α) (prev : NavigationState α)
    (leg : NavigationLeg) (m : ManeuverInstruction)
    (hleg : (prev.currentRoute.getD route).trip.legs.get? prev.currentLegIndex = some leg)
    (hm : leg.maneuvers.get? prev.currentManeuverIndex = some m)
    (hfail : (shapes.getD prev.currentLegIndex []).length = 0 ∨
      (shapes.getD prev.currentLegIndex []).length ≤ m.end_shape_index) :
    (watchCallback d route shapes pos prev).1.distanceToNextManeuver =
      prev.distanceToNextManeuver := by
  have hlen : ¬ leg.maneuvers.length = 0 := by
    intro h0
    rw [List.get?_eq_none.mpr (by omega)] at hm
    exact Option.noConfusion hm
  have hcond : ¬ ((shapes.getD prev.currentLegIndex []).length ≠ 0 ∧
      m.end_shape_index < (shapes.getD prev.currentLegIndex []).length) := by
    rintro ⟨h1, h2⟩
    rcases hfail with h3 | h3 <;> omega
  simp only [watchCallback, hleg, hm]
  rw [if_neg hlen, if_neg hcond]
  split
  · rfl
  · rfl

/-- Witness for the C6 theorem: with no decoded shapes at all, the
distance field keeps its previous value. -/
theorem claim_C6_witness :
    (watchCallback dFar demoRoute ([] : List (List (ℚ × ℚ))) demoPos
      (emptyNavigationState (α := ℚ))).1.distanceToNextManeuver =
      (emptyNavigationState (α := ℚ)).distanceToNextManeuver :=
  claim_C6_unresolvable_keeps_distance dFar demoRoute [] demoPos emptyNavigationState
    demoLeg demoManeuver0 (by decide) (by decide) (Or.inl (by decide))

/-- C7: because the state initialises the distance to 0 and the fail-soft
rule retains the previous distance when the endpoint lookup fails, a fix
processed while the endpoint is unresolvable and the stored distance is
below 8 advances the cursor and fires the announcement of the next
maneuver (whose instruction text is non-empty), even though no distance to
the fix was computed. -/
theorem claim_C7_spurious_advance {α : Type} [LinearOrderedField α]
    (d : α → α → α → α → α) (route : RouteResponse)
    (shapes : List (List (α × α))) (pos : GeoPosition α) (prev : NavigationState α)
    (leg : NavigationLeg) (m next : ManeuverInstruction)
    (hleg : (prev.currentRoute.getD route).trip.legs.get? prev.currentLegIndex = some leg)
    (hm : leg.maneuvers.get? prev.currentManeuverIndex = some m)
    (hfail : (shapes.getD prev.currentLegIndex []).length = 0 ∨
      (shapes.getD prev.currentLegIndex []).length ≤ m.end_shape_index)
    (hdist : prev.distanceToNextManeuver < 8)
    (hlast : prev.currentManeuverIndex < leg.maneuvers.length - 1)
    (hnext : leg.maneuvers.get? (prev.currentManeuverIndex + 1) = some next)
    (hinstr : next.instruction ≠ "") :
    (watchCallback d route shapes pos prev).1.currentManeuverIndex =
        prev.currentManeuverIndex + 1 ∧
      (watchCallback d route shapes pos prev).2 =
        some (prev.currentManeuverIndex + 1, cleanInstruction next.instruction) := by
  have hlen : ¬ leg.maneuvers.length = 0 := by
    intro h0
    rw [List.get?_eq_none.mpr (by omega)] at hm
    exact Option.noConfusion hm
  have hcond : ¬ ((shapes.getD prev.currentLegIndex []).length ≠ 0 ∧
      m.end_shape_index < (shapes.getD prev.currentLegIndex []).length) := by
    rintro ⟨h1, h2⟩
    rcases hfail with h3 | h3 <;> omega
  simp only [watchCallback, hleg, hm, hnext]
  rw [if_neg hlen, if_neg hcond, if_pos ⟨hdist, hlast⟩, if_pos hinstr]
  exact ⟨rfl, rfl⟩

/-- Witness for the C7 theorem: the very first fix of a fresh session with
an empty decoded shape advances the cursor from 0 to 1 and announces the
second maneuver. -/
theorem claim_C7_witness :
    (watchCallback dFar demoRoute ([] : List (List (ℚ × ℚ))) demoPos
        (emptyNavigationState (α := ℚ))).1.currentManeuverIndex = 0 + 1 ∧
      (watchCallback dFar demoRoute ([] : List (List (ℚ × ℚ))) demoPos
          (emptyNavigationState (α := ℚ))).2 =
        some (0 + 1, cleanInstruction demoManeuver1.instruction) :=
  claim_C7_spurious_advance dFar demoRoute [] demoPos emptyNavigationState
    demoLeg demoManeuver0 demoManeuver1 (by decide) (by decide) (Or.inl (by decide))
    (by decide) (by decide) (by decide) (by decide)

/-- The zero-maneuver success response of the C3 scenario. -/
def emptyManeuverRoute : RouteResponse :=
  { trip := { legs := [{ shape := "", maneuvers := [] }], status := 0, status_message := "" } }

theorem runFixes_count_zero {α : Type} [LinearOrderedField α]
    (d : α → α → α → α → α) (route : RouteResponse)
    (shapes : List (List (α × α))) (i : Nat) :
    ∀ (fixes : List (GeoPosition α)) (s : NavigationState α),
      i ≤ s.currentManeuverIndex →
      ((runFixes d route shapes s fixes).2.map Prod.fst).count i = 0 := by
  intro fixes
  induction fixes with
  | nil => intro s hle; simp [runFixes]
  | cons f fs ih =>
    intro s hle
    simp only [runFixes, List.map_append, List.count_append]
    have hmono := watchCallback_index_mono d route shapes f s
    have h2 : i ≤ (watchCallback d route shapes f s).1.currentManeuverIndex := by
      rcases hmono with h1 | h1 <;> omega
    have hrec := ih (watchCallback d route shapes f s).1 h2
    rcases hann : (watchCallback d route shapes f s).2 with _ | ⟨j, t⟩
    · simpa [hann] using hrec
    · have hj := (watchCallback_announce_eq d route shapes f s j t hann).1
      have hji : ¬ j = i := by omega
      simp only [hann, Option.toList_some, List.map_cons, List.map_nil,
        List.count_cons, List.count_nil]
      simp [hji, hrec]

/-- C5: within one run of the position-fix stream, every maneuver index is
handed to `speakInstruction` at most once: a maneuver is announced only on
the transition that makes it current, and the cursor never moves
backwards, so the transition to a given index happens at most once. -/
theorem claim_C5_announce_at_most_once {α : Type} [LinearOrderedField α]
    (d : α → α → α → α → α) (route : RouteResponse)
    (shapes : List (List (α × α))) (s : NavigationState α)
    (fixes : List (GeoPosition α)) (i : Nat) :
    ((runFixes d route shapes s fixes).2.map Prod.fst).count i ≤ 1 := by
  induction fixes generalizing s with
  | nil => simp [runFixes]
  | cons f fs ih =>
    simp only [runFixes, List.map_append, List.count_append]
    rcases hann : (watchCallback d route shapes f s).2 with _ | ⟨j, t⟩
    · simpa [hann] using ih (watchCallback d route shapes f s).1
    · obtain ⟨hj1, hj2⟩ := watchCallback_announce_eq d route shapes f s j t hann
      by_cases hji : j = i
      · subst hji
        have hzero : ((runFixes d route shapes
            (watchCallback d route shapes f s).1 fs).2.map Prod.fst).count j = 0 :=
          runFixes_count_zero d route shapes j fs
            (watchCallback d route shapes f s).1 (le_of_eq hj2.symm)
        simp [hann, hzero]
      · have hrec := ih (watchCallback d route shapes f s).1
        simp only [hann, Option.toList_some, List.map_cons, List.map_nil,
          List.count_cons, List.count_nil]
        simpa [hji] using hrec

/-- C3 counterexample: a provider response with status 0 whose single leg
has zero maneuvers is not rejected: `calculateRoute` stores it as the
current route, clears the error and returns it, so no `EmptyRoute` failure
is produced. -/
theorem claim_C3_counterexample :
    (calculateRoute (α := ℚ)
        (.success emptyManeuverRoute) emptyNavigationState).1.currentRoute =
        some emptyManeuverRoute ∧
      (calculateRoute (α := ℚ)
        (.success emptyManeuverRoute) emptyNavigationState).2 =
        some emptyManeuverRoute ∧
      (calculateRoute (α := ℚ)
        (.success emptyManeuverRoute) emptyNavigationState).1.error = none := by
  refine ⟨?_, ?_, ?_⟩ <;> rfl

/-- C3 as amended: `calculateRoute` performs no leg or maneuver
validation at all.  Every response whose `trip.status` is 0 — including
one with no legs, or one whose single leg has an empty maneuver list — is
stored as the current route and returned; the only rejections are the
non-ok HTTP response, the thrown transport error and a non-zero provider
status.  No `EmptyRoute` error exists anywhere in the code. -/
theorem claim_C3_no_empty_route_validation {α : Type}
    (st : NavigationState α) (data : RouteResponse) (h : data.trip.status = 0) :
    calculateRoute (.success data) st =
      ({ st with isLoading := false, error := none, currentRoute := some data },
        some data) := by
  simp only [calculateRoute]
  rw [if_neg (by simp [h])]

/-- Witness for the amended C3 theorem at the zero-maneuver response. -/
theorem claim_C3_witness :
    calculateRoute (α := ℚ)
        (.success emptyManeuverRoute) emptyNavigationState =
      ({ emptyNavigationState with
          isLoading := false
          error := none
          currentRoute := some emptyManeuverRoute },
        some emptyManeuverRoute) :=
  claim_C3_no_empty_route_validation emptyNavigationState _ (by decide)

/-- C8: on every failing route request (non-ok HTTP response, thrown
transport error, or non-zero provider status), `calculateRoute` returns
null, the session records the failure message with the loading flag
cleared, the previously stored route is left unchanged, and
`startNavigation` does not switch the navigating flag on from that call. -/
theorem claim_C8_failure_keeps_route {α : Type}
    (outcome : FetchOutcome) (st : NavigationState α) (h : isFailure outcome = true) :
    (startNavigation outcome st).2 = none ∧
      (startNavigation outcome st).1.error = some (outcomeMessage outcome) ∧
      (startNavigation outcome st).1.isLoading = false ∧
      (startNavigation outcome st).1.currentRoute = st.currentRoute ∧
      (startNavigation outcome st).1.isNavigating = st.isNavigating := by
  cases outcome with
  | httpError status =>
    simp [startNavigation, calculateRoute, outcomeMessage]
  | thrown message =>
    simp [startNavigation, calculateRoute, outcomeMessage]
  | success data =>
    have hs : data.trip.status ≠ 0 := by
      simpa [isFailure] using h
    simp [startNavigation, calculateRoute, outcomeMessage, hs]

/-- Witness for the C8 theorem at a concrete failing HTTP status. -/
theorem claim_C8_witness :
    (startNavigation (α := ℚ) (.httpError 500) emptyNavigationState).2 = none ∧
      (startNavigation (α := ℚ) (.httpError 500) emptyNavigationState).1.error =
        some (outcomeMessage (.httpError 500)) ∧
      (startNavigation (α := ℚ) (.httpError 500) emptyNavigationState).1.isLoading = false ∧
      (startNavigation (α := ℚ) (.httpError 500) emptyNavigationState).1.currentRoute =
        (emptyNavigationState (α := ℚ)).currentRoute ∧
      (startNavigation (α := ℚ) (.httpError 500) emptyNavigationState).1.isNavigating =
        (emptyNavigationState (α := ℚ)).isNavigating :=
  claim_C8_failure_keeps_route (.httpError 500) emptyNavigationState (by decide)

end MobileNav
